import Mathlib

/-!
Shallow embedding of the Yukibot core (TypeScript) into Lean 4, together with
theorems settling the frozen claims about it.

Conventions of the embedding:
* A `Result` mirrors the `{success, value?}` objects produced by `successOf`
  and `failure()` in the source.
* JavaScript `Map`s and the plain-object bank are modelled as association
  lists (`AList`) with `Map.set` overwrite semantics.
* Stateful methods become pure functions from the relevant state (plus the
  remote response, modelled as an `Option`: `none` is a thrown/rejected remote
  call) to the new state and the returned value.
* JavaScript numbers that the code treats as integers are `Int` (or `Nat`
  where the claim restricts to non-negative arguments).
-/

namespace Yukibot

/-- `Result<T>` from src/util: `successOf(v) = {success: true, value: v}`,
`failure() = {success: false}`. -/
structure Result (α : Type) where
  success : Bool
  value : Option α
deriving Repr, DecidableEq

def successOf {α : Type} (v : α) : Result α := ⟨true, some v⟩

def failure {α : Type} : Result α := ⟨false, none⟩

/-- JavaScript truthiness of a `Result` value: both `successOf(...)` and
`failure()` are plain objects, and every object is truthy in JavaScript. -/
def Result.truthy {α : Type} (_ : Result α) : Bool := true

/-! ### Association lists: JS `Map` / plain-object store semantics -/

/-- A JS `Map<String, β>` (or plain object used as a dictionary). -/
abbrev AList (β : Type) := List (String × β)

/-- `map.get(k)` / `obj[k]`: the stored value, if any. -/
def aGet {β : Type} (m : AList β) (k : String) : Option β :=
  (m.find? (fun p => p.1 == k)).map (fun p => p.2)

/-- `map.has(k)` / `k in obj`. -/
def aHas {β : Type} (m : AList β) (k : String) : Bool :=
  m.any (fun p => p.1 == k)

/-- `map.set(k, v)` / `obj[k] = v`: overwrite the entry at an existing key in
place (a JS `Map` keeps insertion order on overwrite), else append. -/
def aSet {β : Type} (m : AList β) (k : String) (v : β) : AList β :=
  match m with
  | [] => [(k, v)]
  | (k', v') :: tl => if k' == k then (k, v) :: tl else (k', v') :: aSet tl k v

theorem aGet_aSet_self {β : Type} (m : AList β) (k : String) (v : β) :
    aGet (aSet m k v) k = some v := by
  induction m with
  | nil => simp [aGet, aSet, List.find?]
  | cons hd tl ih =>
    by_cases hk : hd.1 == k
    · simp [aGet, aSet, hk, List.find?]
    · simp only [aGet, aSet, hk, Bool.false_eq_true, ite_false, List.find?]
      simpa [aGet] using ih

theorem aGet_aSet_ne {β : Type} (m : AList β) (k k' : String) (v : β)
    (hne : k' ≠ k) : aGet (aSet m k v) k' = aGet m k' := by
  induction m with
  | nil =>
    have : ¬(k == k') := by simpa using fun h => hne h.symm
    simp [aGet, aSet, List.find?, this]
  | cons hd tl ih =>
    by_cases hk : hd.1 == k
    · have hdk : hd.1 = k := by simpa using hk
      have h1 : ¬(k == k') := by simpa using fun h => hne h.symm
      have h2 : ¬(hd.1 == k') := by simpa [hdk] using fun h => hne h.symm
      simp [aGet, aSet, hk, List.find?, h1, h2]
    · simp only [aGet, aSet, hk, Bool.false_eq_true, ite_false, List.find?]
      by_cases hk' : hd.1 == k'
      · simp [hk']
      · simpa [aGet, hk'] using ih

/-! ### MoneySystem (the wallet ledger) -/

/-- `const startingWallet = 1000`. -/
def startingWallet : Int := 1000

/-- The in-memory bank: `uid -> balance`, a plain JS object. -/
abbrev Bank := AList Int

/-- JS truthiness test `!bank[uid]`: the lookup is falsy when the property is
absent (`undefined`) or the stored number is `0`. -/
def walletFalsy (v : Option Int) : Bool :=
  match v with
  | none => true
  | some n => n == 0

/-- `getWallet(uid)`:
`if (!bank[uid]) bank[uid] = startingWallet; return bank[uid]`.
Returns the (possibly seeded) bank and the returned balance. -/
def getWallet (bank : Bank) (uid : String) : Bank × Int :=
  if walletFalsy (aGet bank uid) then
    (aSet bank uid startingWallet, startingWallet)
  else
    (bank, (aGet bank uid).getD 0)

/-- One step of `transactionBatch`'s `forEach`:
`bank[uid] = getWallet(uid) + amount` (note that `getWallet` itself may seed
the wallet first). -/
def applyEntry (bank : Bank) (e : String × Int) : Bank :=
  let r := getWallet bank e.1
  aSet r.1 e.1 (r.2 + e.2)

/-- `transactionBatch(map)`: applies every delta to the in-memory bank via
`forEach`, then `await saveBank()` writes the whole ledger to disk.  The disk
copy is modelled explicitly and `writeOk` tells whether `file.write`
succeeds; when it fails the promise rejects after the in-memory mutations
have already happened.  Returns (in-memory bank, disk copy, resolvedOk). -/
def transactionBatch (bank disk : Bank) (entries : List (String × Int))
    (writeOk : Bool) : Bank × Bank × Bool :=
  let newBank := entries.foldl applyEntry bank
  if writeOk then (newBank, newBank, true) else (newBank, disk, false)

/-! ### BroadcastHandler.chatPage -/

/-- JS `Array.prototype.slice(s, e)` for non-negative `s`, `e`: the elements
at positions `s, ..., e-1`. -/
def jsSlice {α : Type} (l : List α) (s e : Nat) : List α :=
  (l.take e).drop s

/-- `chatPage(index, max = 0)`:
`chatHistory.slice(index, max > 0 ? index + max + 1 : chatHistory.length)`.
Modelled for the non-negative arguments the claim quantifies over. -/
def chatPage (hist : List String) (index : Nat) (max : Nat) : List String :=
  jsSlice hist index (if max > 0 then index + max + 1 else hist.length)

/-! ### BroadcastHandler -/

/-- A `Schema$LiveBroadcast`, reduced to the fields the handler touches. -/
structure Broadcast where
  id : Nat
  liveChatId : String
deriving Repr, DecidableEq

/-- A `Schema$LiveChatMessage`, reduced to an identifying payload. -/
structure ChatMsg where
  text : String
deriving Repr, DecidableEq

/-- One record pushed onto `this.calls` by `ApiHandler` subclasses. -/
structure CallRecord where
  type : String
  success : Bool
deriving Repr, DecidableEq

/-- The mutable fields of `BroadcastHandler`. -/
structure BHState where
  broadcast : Option Broadcast
  chatHistory : List ChatMsg
  chatNextPage : Option String
  calls : List CallRecord
deriving Repr, DecidableEq

/-- `fetchBroadcast()`.  The remote call is a parameter: `none` models the
`liveBroadcasts.list` call throwing (caught by the `catch`), `some items`
models a successful response with `response.data.items = items`.  Returns
the updated handler state and the `Result`.  The method publishes nothing
(it has no reference to any event bus). -/
def fetchBroadcast (st : BHState) (resp : Option (List Broadcast)) :
    BHState × Result Broadcast :=
  match resp with
  | some (b :: _) =>
    ({ st with broadcast := some b,
               calls := ⟨"list/broadcast", true⟩ :: st.calls },
     successOf b)
  | some [] =>
    ({ st with calls := ⟨"list/broadcast", false⟩ :: st.calls }, failure)
  | none =>
    ({ st with calls := ⟨"list/broadcast", false⟩ :: st.calls }, failure)

/-- `fetchChatMessages()`.  `none` models the `liveChatMessages.list` call
throwing; `some (items, nextTok)` a successful response carrying
`response.data.items` and `response.data.nextPageToken`.  On success the
cursor is overwritten and the new messages appended to the history. -/
def fetchChatMessages (st : BHState)
    (resp : Option (List ChatMsg × Option String)) :
    BHState × Result (List ChatMsg) :=
  match resp with
  | some (items, nextTok) =>
    ({ st with chatNextPage := nextTok,
               chatHistory := st.chatHistory ++ items,
               calls := ⟨"list/message", true⟩ :: st.calls },
     successOf items)
  | none =>
    ({ st with calls := ⟨"list/message", false⟩ :: st.calls }, failure)

/-- `sendMessage(messageText)`: `sendOk` tells whether the
`liveChatMessages.insert` call succeeds; either way the method returns a
`Result` object (`successOf(response.data)` or `failure()`). -/
def sendMessage (sendOk : Bool) (sent : ChatMsg) : Result ChatMsg :=
  if sendOk then successOf sent else failure

/-! ### The beatass command handler -/

/-- The payout descriptor a command handler may return. -/
structure Payout where
  uids : List String
  amount : Int
deriving Repr, DecidableEq

/-- The `beatass` handler body.  `channelId` is the invoking author,
`targetChannelId` the randomly chosen chatter, `cost` is `_this.cost`,
`succeeds` models `Math.random() > 0.55`, and `sendOk`/`sentMsg` feed the
`sendMessage` call.  The source binds `const failed = await
yt.chat.sendMessage(...)` and tests `if (failed)` — JS truthiness of the
returned `Result` object. -/
def beatassHandler (channelId targetChannelId : String) (cost : Int)
    (succeeds : Bool) (sendOk : Bool) (sentMsg : ChatMsg) : Option Payout :=
  let successPayout := cost * 2
  let defensePayout := cost
  let failed := (sendMessage sendOk sentMsg).truthy
  if failed then
    none
  else
    some { uids := [if succeeds then channelId else targetChannelId],
           amount := if succeeds then successPayout else defensePayout }

/-! ### YukiBuilder.buildCommands -/

/-- A built `Command`: its primary name and its aliases.  (The other fields
— cost, cooldown, handler — play no role in registration.) -/
structure Command where
  name : String
  /-- the source field is `alias`, a reserved word in Lean. -/
  aliases : List String
deriving Repr, DecidableEq

/-- `CommandBuilder.allNames`: the primary name together with every alias.
Modelled from the spec: `CommandBuilder`'s source is not in the repository
slice; the spec's registration DSL gives a command "name, alias list", and
`buildCommands` registers `[command.name, ...command.alias]`. -/
def allNames (c : Command) : List String := c.name :: c.aliases

/-- The registry `this.commands : Map<string, Command>`. -/
abbrev CmdMap := AList Command

/-- One iteration of `buildCommands`' loop over the recipes: compute the
duplicates of the built command's names against the registry; if any exist,
warn and `continue` (registering nothing); otherwise register the command
under its name and every alias. -/
def buildStep (m : CmdMap) (c : Command) : CmdMap :=
  let duplicates := (allNames c).filter (fun n => aHas m n)
  if duplicates.length > 0 then m
  else (allNames c).foldl (fun m' n => aSet m' n c) m

/-- `buildCommands()`: fold the recipes (each modelled by the command it
builds) into the initially empty registry. -/
def buildCommands (recipes : List Command) : CmdMap :=
  recipes.foldl buildStep []

/-! ### YukiBuilder build-time validation -/

/-- The JS value stored in a builder slot such as `tokenLoader`:
`undef` (never assigned / `undefined`), a function, or any other value. -/
inductive JsVal where
  | undef
  | func
  | nonfunc
deriving Repr, DecidableEq

/-- The builder fields `prebuildCheck`, `buildTest` and `buildYuki` read. -/
structure BuilderState where
  /-- whether `this.youtube` is a `YoutubeWrapper` (set via `googleConfig`). -/
  youtubeSet : Bool
  tokenLoader : JsVal
  userCacheLoader : JsVal
  /-- `yukiConfig.test === true`. -/
  testMode : Bool
deriving Repr, DecidableEq

/-- `prebuildCheck()`: fails when `youtube` is not a `YoutubeWrapper`, when
`tokenLoader` is not a function, or when a `userCacheLoader` is present but
not a function.  (The empty-listener and prefix checks only warn.) -/
def prebuildCheck (s : BuilderState) : Bool :=
  s.youtubeSet && s.tokenLoader == JsVal.func &&
    (s.userCacheLoader == JsVal.undef || s.userCacheLoader == JsVal.func)

/-- The two bot classes a successful build can produce. -/
inductive BotKind where
  | yuki
  | testYuki
deriving Repr, DecidableEq

/-- `buildTest()`: fill a mock google config when `youtube` is undefined
(the mock strings always pass the `googleConfig` setter, so `youtube`
becomes set), fill `tokenLoader ?? (() => undefined)` (a function) when it
is undefined/null, then run `prepare()`; return `undefined` iff
`prebuildCheck` fails on the filled state. -/
def buildTest (s : BuilderState) : Option BotKind :=
  let s' : BuilderState :=
    { s with
      youtubeSet := true,
      tokenLoader := if s.tokenLoader == JsVal.undef then JsVal.func
                     else s.tokenLoader }
  if prebuildCheck s' then some BotKind.testYuki else none

/-- `buildYuki()`: in test mode delegate to `buildTest`; otherwise run
`prepare()` and return `undefined` iff `prebuildCheck` fails. -/
def buildYuki (s : BuilderState) : Option BotKind :=
  if s.testMode then buildTest s
  else if prebuildCheck s then some BotKind.yuki else none

/-! ### AsyncCache

Modelled from the spec: the `AsyncCache` class itself is not in the
repository slice (only its construction site is).  Spec §4.2: a cache entry
is Empty / Loading / Populated / Failed; `get` on Empty or Failed
transitions to Loading and invokes the loader exactly once; `get` on
Loading joins the in-flight operation as a waiter; when the load completes,
every waiter is resolved with the identical outcome, and the entry becomes
Populated on success or Failed on failure. -/

/-- The state of one cache entry, with Loading carrying its waiter count. -/
inductive CacheEntry (V : Type) where
  | empty
  | loading (waiters : Nat)
  | populated (v : V)
  | failed
deriving Repr, DecidableEq

/-- One cache key's entry together with the number of loader invocations
made for it so far. -/
structure CacheSys (V : Type) where
  entry : CacheEntry V
  loaderCalls : Nat
deriving Repr, DecidableEq

/-- The cache before any `get`. -/
def cacheInit (V : Type) : CacheSys V := ⟨CacheEntry.empty, 0⟩

/-- One `get(key)` arriving: on Empty or Failed, transition to Loading and
invoke the loader; on Loading, join as one more waiter; on Populated the
call resolves immediately without touching the loader. -/
def cacheGet {V : Type} (c : CacheSys V) : CacheSys V :=
  match c.entry with
  | CacheEntry.empty => ⟨CacheEntry.loading 1, c.loaderCalls + 1⟩
  | CacheEntry.failed => ⟨CacheEntry.loading 1, c.loaderCalls + 1⟩
  | CacheEntry.loading w => ⟨CacheEntry.loading (w + 1), c.loaderCalls⟩
  | CacheEntry.populated v => ⟨CacheEntry.populated v, c.loaderCalls⟩

/-- `n` concurrent `get(key)` calls arriving (cooperative scheduling: their
synchronous prefixes run one after another before the load completes). -/
def cacheGetN {V : Type} (n : Nat) (c : CacheSys V) : CacheSys V :=
  match n with
  | 0 => c
  | n + 1 => cacheGetN n (cacheGet c)

/-- The in-flight load completing with outcome `r`: every waiter resolves
with exactly `r`, and the entry becomes Populated or Failed.  Returns the
new state and the list of outcomes delivered to the waiters. -/
def cacheResolve {V : Type} (c : CacheSys V) (r : Result V) :
    CacheSys V × List (Result V) :=
  match c.entry with
  | CacheEntry.loading w =>
    (⟨match r.value with
      | some v => if r.success then CacheEntry.populated v
                  else CacheEntry.failed
      | none => CacheEntry.failed,
      c.loaderCalls⟩,
     List.replicate w r)
  | _ => (c, [])

/-! ### The passive listener -/

/-- An observable step of `addPassiveListener`'s message handler: evaluating
passive `i`'s predicate, or running passive `i`'s handler. -/
inductive PEvent where
  | predEval (i : Nat)
  | handlerRun (i : Nat)
deriving Repr, DecidableEq

/-- The trace of one incoming message through the passive listener: first
every registered passive's predicate is evaluated (the `Promise.all` over
`passives.map(p => p.predicate(...))`), then the handlers of exactly the
passives whose predicate returned true are invoked (the `Promise.all` over
`passives.filter((_, i) => predicates[i]).map(p => p.invoke(...))`).
`passives` is the list of predicates, already applied to the fixed
`(msg, tokens)` pair. -/
def passiveTrace (passives : List Bool) : List PEvent :=
  ((List.range passives.length).map PEvent.predEval) ++
    (((List.range passives.length).filter
        (fun i => passives.getD i false)).map PEvent.handlerRun)

/-! ## Claim theorems -/

/-- C8: the beatass handler never produces a payout descriptor: `sendMessage`
returns a `Result` object (truthy in JS) on both the success and the failure
path, the handler binds it to `failed` and returns `undefined` whenever
`failed` is truthy, so for every input it returns `undefined` and no wallet
credit is requested. -/
theorem beatass_never_pays (channelId targetChannelId : String) (cost : Int)
    (succeeds sendOk : Bool) (sentMsg : ChatMsg) :
    (sendMessage sendOk sentMsg).truthy = true ∧
    beatassHandler channelId targetChannelId cost succeeds sendOk sentMsg
      = none :=
  ⟨rfl, rfl⟩

/-- C9: for `m > 0`, `chatPage(i, m)` returns the slice of the chat history
from position `i` up to but excluding position `i + m + 1` — i.e. up to
`m + 1` messages, one more than `m`; for `m = 0` it returns the entire
remaining history from position `i` onward. -/
theorem chatPage_spec (hist : List String) (index max : Nat) :
    (0 < max → chatPage hist index max = (hist.drop index).take (max + 1)) ∧
    chatPage hist index 0 = hist.drop index := by
  constructor
  · intro hmax
    unfold chatPage jsSlice
    rw [if_pos hmax, List.drop_take]
    congr 1
    omega
  · unfold chatPage jsSlice
    simp

/-- Witness for C9 at a concrete history, index 1, max 2. -/
theorem chatPage_spec_witness :
    chatPage ["a", "b", "c", "d"] 1 2 = (["a", "b", "c", "d"].drop 1).take 3 :=
  (chatPage_spec ["a", "b", "c", "d"] 1 2).1 (by decide)

/-- C10: a successful remote broadcast-list response with zero items makes
`fetchBroadcast` return `failure()`, record the call as unsuccessful, and
leave the held broadcast unchanged — producing exactly the same state and
result as a failed (throwing) fetch. -/
theorem fetchBroadcast_emptyItems (st : BHState) :
    fetchBroadcast st (some []) = fetchBroadcast st none ∧
    (fetchBroadcast st (some [])).2 = failure ∧
    (fetchBroadcast st (some [])).1.calls.head? =
      some ⟨"list/broadcast", false⟩ ∧
    (fetchBroadcast st (some [])).1.broadcast = st.broadcast :=
  ⟨rfl, rfl, rfl, rfl⟩

/-- C5: whenever `fetchBroadcast` returns a failure the held broadcast is
unchanged (and the method publishes nothing — it has no event bus), and
whenever `fetchChatMessages` returns a failure both the chat history and the
pagination cursor `chatNextPage` are unchanged. -/
theorem fetch_failure_frame (st : BHState) :
    (∀ resp, (fetchBroadcast st resp).2.success = false →
      (fetchBroadcast st resp).1.broadcast = st.broadcast) ∧
    (∀ resp, (fetchChatMessages st resp).2.success = false →
      (fetchChatMessages st resp).1.chatHistory = st.chatHistory ∧
      (fetchChatMessages st resp).1.chatNextPage = st.chatNextPage) := by
  constructor
  · intro resp h
    match resp with
    | none => rfl
    | some [] => rfl
    | some (b :: rest) => simp [fetchBroadcast, successOf] at h
  · intro resp h
    match resp with
    | none => exact ⟨rfl, rfl⟩
    | some (items, tok) => simp [fetchChatMessages, successOf] at h

/-- Witness for C5: a throwing fetch leaves a concrete held broadcast in
place. -/
theorem fetch_failure_frame_witness :
    (fetchBroadcast ⟨some ⟨1, "chan"⟩, [], none, []⟩ none).1.broadcast =
      some ⟨1, "chan"⟩ :=
  (fetch_failure_frame ⟨some ⟨1, "chan"⟩, [], none, []⟩).1 none rfl

/-- C2 counterexample: a user whose stored balance is exactly 0 is re-seeded
to 1000 by `getWallet` (the `!bank[uid]` check is falsy on 0), so the claim
that an existing 0-balance entry is returned unchanged is false. -/
theorem getWallet_zero_reseeds :
    ¬(getWallet [("u", (0 : Int))] "u" = ([("u", (0 : Int))], 0)) := by
  decide

/-- C2 amended: `getWallet` seeds the starting balance (1000) if and only if
the stored balance is JS-falsy — the user has no prior entry *or* the stored
balance is exactly 0; for an existing entry with a nonzero balance it
returns the stored balance and leaves the bank unchanged. -/
theorem getWallet_spec (bank : Bank) (uid : String) :
    (aGet bank uid = none →
      getWallet bank uid = (aSet bank uid startingWallet, startingWallet)) ∧
    (aGet bank uid = some 0 →
      getWallet bank uid = (aSet bank uid startingWallet, startingWallet)) ∧
    (∀ v : Int, aGet bank uid = some v → v ≠ 0 →
      getWallet bank uid = (bank, v)) := by
  refine ⟨fun h => ?_, fun h => ?_, fun v h hv => ?_⟩
  · unfold getWallet walletFalsy
    rw [h]
    simp
  · unfold getWallet walletFalsy
    rw [h]
    simp
  · unfold getWallet walletFalsy
    rw [h]
    simp [hv]

/-- Witness for C2 (amended) on a stored nonzero balance. -/
theorem getWallet_spec_witness :
    getWallet [("a", (5 : Int))] "a" = ([("a", (5 : Int))], 5) :=
  (getWallet_spec [("a", 5)] "a").2.2 5 (by decide) (by decide)

/-- C3 counterexample: `transactionBatch` mutates the in-memory bank before
`saveBank()` runs, so when the persistence write fails the in-memory
balances are *not* unchanged: from an empty bank, applying `[("a", 5)]`
with a failing write leaves the in-memory bank non-empty. -/
theorem transactionBatch_not_atomic :
    ¬((transactionBatch [] [] [("a", (5 : Int))] false).1 = []) := by
  decide

/-- C3 amended: `transactionBatch` always applies every delta to the
in-memory balances first (the in-memory result is identical whether or not
the write succeeds); the single full-ledger write then either persists that
exact state (success) or fails, in which case the failure is surfaced to
the caller (the promise rejects) and the on-disk copy keeps its old
contents, diverging from memory.  Each applied entry leaves the (possibly
seeded) wallet increased by its delta. -/
theorem transactionBatch_spec (bank disk : Bank)
    (entries : List (String × Int)) :
    (transactionBatch bank disk entries false).1 =
      (transactionBatch bank disk entries true).1 ∧
    (transactionBatch bank disk entries false).2.1 = disk ∧
    (transactionBatch bank disk entries false).2.2 = false ∧
    (transactionBatch bank disk entries true).2.1 =
      (transactionBatch bank disk entries true).1 ∧
    (∀ (bank' : Bank) (uid : String) (amt : Int),
      aGet (applyEntry bank' (uid, amt)) uid =
        some ((getWallet bank' uid).2 + amt)) := by
  refine ⟨rfl, rfl, rfl, rfl, fun bank' uid amt => ?_⟩
  unfold applyEntry
  exact aGet_aSet_self _ _ _

/-- C7 counterexample: with the google config unset and the token loader
unset, `buildTest` does *not* return `undefined` — it fills a mock google
config and a default token loader and returns a bot instance — so the claim
that these validation failures abort `buildTest` is false. -/
theorem buildTest_fills_defaults :
    ¬(buildTest ⟨false, JsVal.undef, JsVal.undef, false⟩ = none) := by
  decide

/-- C7 amended: whenever build-time validation fails, `buildYuki` outside
test mode returns `undefined` and no bot instance is constructed — in
particular when the google config has not been set or the token loader is
not a function.  `buildTest` (to which `buildYuki` delegates in test mode)
first substitutes a mock google config and a default token loader for
*missing* ones, and returns `undefined` exactly when validation still fails
afterwards: when the token loader or the user cache loader was set to a
non-function value. -/
theorem build_validation_spec (s : BuilderState) :
    (s.testMode = false → prebuildCheck s = false → buildYuki s = none) ∧
    (s.testMode = false →
      (s.youtubeSet = false ∨ s.tokenLoader ≠ JsVal.func) →
      buildYuki s = none) ∧
    (buildTest s = none ↔
      (s.tokenLoader = JsVal.nonfunc ∨ s.userCacheLoader = JsVal.nonfunc)) ∧
    (s.testMode = true → buildYuki s = buildTest s) := by
  obtain ⟨yt, tl, ucl, tm⟩ := s
  cases yt <;> cases tl <;> cases ucl <;> cases tm <;> decide

/-- Witness for C7 (amended): a builder with no google config and no token
loader, outside test mode, yields no bot. -/
theorem build_validation_spec_witness :
    buildYuki ⟨false, JsVal.undef, JsVal.undef, false⟩ = none :=
  (build_validation_spec ⟨false, JsVal.undef, JsVal.undef, false⟩).2.1 rfl
    (Or.inl rfl)

/-- `n` further concurrent `get`s on a Loading entry add `n` waiters and
never touch the loader. -/
theorem cacheGetN_loading {V : Type} (k w calls : Nat) :
    cacheGetN k (⟨CacheEntry.loading w, calls⟩ : CacheSys V) =
      ⟨CacheEntry.loading (w + k), calls⟩ := by
  induction k generalizing w with
  | zero => rfl
  | succ k ih =>
    show cacheGetN k (⟨CacheEntry.loading (w + 1), calls⟩ : CacheSys V) = _
    rw [ih]
    have hw : w + 1 + k = w + (k + 1) := by omega
    rw [hw]

/-- C4: for every `n ≥ 1`, `n` concurrent `get(K)` calls against a cache
with no entry for `K` invoke the loader exactly once, and when the
in-flight load completes with outcome `r` all `n` calls resolve with that
identical outcome. -/
theorem asyncCache_single_flight {V : Type} (n : Nat) (hn : 1 ≤ n)
    (r : Result V) :
    (cacheGetN n (cacheInit V)).loaderCalls = 1 ∧
    (cacheResolve (cacheGetN n (cacheInit V)) r).2 = List.replicate n r := by
  obtain ⟨m, rfl⟩ : ∃ m, n = m + 1 := ⟨n - 1, by omega⟩
  have h : cacheGetN (m + 1) (cacheInit V) =
      ⟨CacheEntry.loading (1 + m), 1⟩ := by
    show cacheGetN m (cacheGet (cacheInit V)) = _
    exact cacheGetN_loading m 1 1
  rw [h]
  refine ⟨rfl, ?_⟩
  show List.replicate (1 + m) r = List.replicate (m + 1) r
  rw [Nat.add_comm]

/-- Witness for C4: three concurrent gets on an empty `Nat` cache. -/
theorem asyncCache_single_flight_witness :
    (cacheGetN 3 (cacheInit Nat)).loaderCalls = 1 ∧
    (cacheResolve (cacheGetN 3 (cacheInit Nat)) (successOf 7)).2 =
      List.replicate 3 (successOf 7) :=
  asyncCache_single_flight 3 (by decide) (successOf 7)

/-- In a concatenation whose left part satisfies `p` everywhere and whose
right part satisfies it nowhere, every position holding a `p`-element comes
before every position holding a non-`p`-element. -/
theorem append_pos_lt {α : Type} (A B : List α) (p : α → Prop)
    (hA : ∀ x ∈ A, p x) (hB : ∀ x ∈ B, ¬p x) (k₁ k₂ : Nat)
    (h₁ : k₁ < (A ++ B).length) (h₂ : k₂ < (A ++ B).length)
    (e₁ : p ((A ++ B).get ⟨k₁, h₁⟩)) (e₂ : ¬p ((A ++ B).get ⟨k₂, h₂⟩)) :
    k₁ < k₂ := by
  have hk₁ : k₁ < A.length := by
    by_contra hge
    push_neg at hge
    have hmem : (A ++ B).get ⟨k₁, h₁⟩ ∈ B := by
      rw [List.get_eq_getElem, List.getElem_append_right hge]
      exact List.getElem_mem _
    exact hB _ hmem e₁
  have hk₂ : A.length ≤ k₂ := by
    by_contra hlt
    push_neg at hlt
    have hmem : (A ++ B).get ⟨k₂, h₂⟩ ∈ A := by
      rw [List.get_eq_getElem, List.getElem_append_left hlt]
      exact List.getElem_mem _
    exact e₂ (hA _ hmem)
  omega

/-- C6: for every incoming list of predicate outcomes (every registered
passive's predicate applied to the message), the passive listener's trace
(1) contains a predicate evaluation for every registered passive,
(2) contains a handler run for exactly the passives whose predicate
returned true, and (3) places every predicate evaluation before every
handler run. -/
theorem passive_listener_spec (preds : List Bool) :
    (∀ i, i < preds.length → PEvent.predEval i ∈ passiveTrace preds) ∧
    (∀ i, PEvent.handlerRun i ∈ passiveTrace preds ↔
      i < preds.length ∧ preds.getD i false = true) ∧
    (∀ i j k₁ k₂ (h₁ : k₁ < (passiveTrace preds).length)
        (h₂ : k₂ < (passiveTrace preds).length),
      (passiveTrace preds).get ⟨k₁, h₁⟩ = PEvent.predEval i →
      (passiveTrace preds).get ⟨k₂, h₂⟩ = PEvent.handlerRun j →
      k₁ < k₂) := by
  refine ⟨?_, ?_, ?_⟩
  · intro i h
    exact List.mem_append_left _
      (List.mem_map_of_mem _ (List.mem_range.mpr h))
  · intro i
    constructor
    · intro h
      rcases List.mem_append.mp h with h | h
      · obtain ⟨a, _, ha⟩ := List.mem_map.mp h
        simp at ha
      · obtain ⟨a, hmem, ha⟩ := List.mem_map.mp h
        obtain ⟨hr, hp⟩ := List.mem_filter.mp hmem
        obtain rfl : a = i := by simpa using ha
        exact ⟨List.mem_range.mp hr, hp⟩
    · intro ⟨hlen, hp⟩
      exact List.mem_append_right _
        (List.mem_map_of_mem _
          (List.mem_filter.mpr ⟨List.mem_range.mpr hlen, hp⟩))
  · intro i j k₁ k₂ h₁ h₂ e₁ e₂
    refine append_pos_lt _ _ (fun e => ∃ a, e = PEvent.predEval a)
      ?_ ?_ k₁ k₂ h₁ h₂ ⟨i, e₁⟩ ?_
    · intro x hx
      obtain ⟨a, _, ha⟩ := List.mem_map.mp hx
      exact ⟨a, ha.symm⟩
    · intro x hx hcon
      obtain ⟨a, _, ha⟩ := List.mem_map.mp hx
      obtain ⟨b, hb⟩ := hcon
      rw [← ha] at hb
      simp at hb
    · intro ⟨b, hb⟩
      have hcb : PEvent.handlerRun j = PEvent.predEval b := by
        rw [← e₂]
        exact hb
      simp at hcb

/-- Witness for C6: two passives, predicates `[true, false]` — passive 0's
handler runs, passive 1's does not. -/
theorem passive_listener_spec_witness :
    PEvent.handlerRun 0 ∈ passiveTrace [true, false] ∧
    ¬(PEvent.handlerRun 1 ∈ passiveTrace [true, false]) :=
  ⟨((passive_listener_spec [true, false]).2.1 0).mpr ⟨by decide, by decide⟩,
   fun h =>
     by simpa using ((passive_listener_spec [true, false]).2.1 1).mp h⟩

/-! ### C1: duplicate command registration -/

theorem aHas_eq_isSome {β : Type} (m : AList β) (k : String) :
    aHas m k = (aGet m k).isSome := by
  induction m with
  | nil => rfl
  | cons hd tl ih =>
    by_cases h : hd.1 == k
    · simp [aHas, aGet, List.find?, h]
    · simpa [aHas, aGet, List.find?, h] using ih

/-- Registering a command `c` under a list of names maps each of those
names — and any name already mapping to `c` — to `c`. -/
theorem aGet_foldl_aSet (names : List String) (m : CmdMap) (c : Command)
    (n : String) (h : aGet m n = some c ∨ n ∈ names) :
    aGet (names.foldl (fun m' nm => aSet m' nm c) m) n = some c := by
  induction names generalizing m with
  | nil =>
    rcases h with h | h
    · exact h
    · cases h
  | cons hd tl ih =>
    show aGet (tl.foldl _ (aSet m hd c)) n = some c
    apply ih
    by_cases hn : n = hd
    · left
      rw [hn]
      exact aGet_aSet_self m hd c
    · rcases h with h | h
      · left
        rw [aGet_aSet_ne m hd n c hn]
        exact h
      · rcases List.mem_cons.mp h with h | h
        · exact absurd h hn
        · right
          exact h

/-- Registering a command under names not containing `n` leaves the entry
for `n` unchanged. -/
theorem aGet_foldl_aSet_not_mem (names : List String) (m : CmdMap)
    (c : Command) (n : String) (hn : ¬n ∈ names) :
    aGet (names.foldl (fun m' nm => aSet m' nm c) m) n = aGet m n := by
  induction names generalizing m with
  | nil => rfl
  | cons hd tl ih =>
    have h1 : n ≠ hd := fun h => hn (h ▸ List.mem_cons_self hd tl)
    have h2 : ¬n ∈ tl := fun h => hn (List.mem_cons_of_mem hd h)
    show aGet (tl.foldl _ (aSet m hd c)) n = aGet m n
    rw [ih (aSet m hd c) h2]
    exact aGet_aSet_ne m hd n c h1

/-- A recipe one of whose names is already registered is skipped whole. -/
theorem buildStep_skip (m : CmdMap) (c : Command)
    (h : ∃ n, n ∈ allNames c ∧ aHas m n = true) : buildStep m c = m := by
  show (if ((allNames c).filter (fun n => aHas m n)).length > 0 then m
        else (allNames c).foldl (fun m' n => aSet m' n c) m) = m
  obtain ⟨n, hn, hhas⟩ := h
  have hpos : ((allNames c).filter (fun n => aHas m n)).length > 0 := by
    apply List.length_pos.mpr
    intro hnil
    exact List.filter_eq_nil_iff.mp hnil n hn hhas
  rw [if_pos hpos]

/-- A recipe with no name collision registers itself under all its names. -/
theorem buildStep_register (m : CmdMap) (c : Command)
    (h : ∀ n, n ∈ allNames c → aHas m n = false) :
    buildStep m c = (allNames c).foldl (fun m' n => aSet m' n c) m := by
  show (if ((allNames c).filter (fun n => aHas m n)).length > 0 then m
        else (allNames c).foldl (fun m' n => aSet m' n c) m) = _
  have hnil : (allNames c).filter (fun n => aHas m n) = [] :=
    List.filter_eq_nil_iff.mpr (fun a ha => by rw [h a ha]; intro hc; cases hc)
  rw [hnil]
  rfl

/-- C1 counterexample: registering `{name: "a"}` and then
`{name: "a", aliases: ["b"]}` drops the *entire* second registration — its
non-colliding alias `"b"` is not registered, contradicting the claim that
only the colliding names are dropped. -/
theorem buildCommands_drops_whole_registration :
    ¬(aHas (buildCommands [⟨"a", []⟩, ⟨"a", ["b"]⟩]) "b" = true) := by
  decide

/-- C1 amended: when the second of two registrations shares at least one
name or alias with the first, the whole second registration is skipped: the
registry is exactly what the first registration alone produces, the first
command remains registered and callable under all of its names, and *no*
name of the second registration (colliding or not, unless it is also a name
of the first) is registered. -/
theorem buildCommands_duplicate_spec (r1 r2 : Command)
    (hcol : ∃ n, n ∈ allNames r2 ∧ n ∈ allNames r1) :
    buildCommands [r1, r2] = buildCommands [r1] ∧
    (∀ n, n ∈ allNames r1 → aGet (buildCommands [r1, r2]) n = some r1) ∧
    (∀ n, n ∈ allNames r2 → ¬n ∈ allNames r1 →
      aGet (buildCommands [r1, r2]) n = none) := by
  have hfirst : buildCommands [r1] =
      (allNames r1).foldl (fun m' n => aSet m' n r1) [] := by
    show buildStep [] r1 = _
    exact buildStep_register [] r1 (fun n _ => rfl)
  have hget1 : ∀ n, n ∈ allNames r1 →
      aGet (buildCommands [r1]) n = some r1 := by
    intro n hn
    rw [hfirst]
    exact aGet_foldl_aSet (allNames r1) [] r1 n (Or.inr hn)
  have hskip : buildCommands [r1, r2] = buildCommands [r1] := by
    show buildStep (buildStep [] r1) r2 = buildStep [] r1
    apply buildStep_skip
    obtain ⟨n, hn2, hn1⟩ := hcol
    refine ⟨n, hn2, ?_⟩
    rw [aHas_eq_isSome]
    have : aGet (buildStep [] r1) n = some r1 := hget1 n hn1
    rw [this]
    rfl
  refine ⟨hskip, ?_, ?_⟩
  · intro n hn
    rw [hskip]
    exact hget1 n hn
  · intro n _ hnot1
    rw [hskip, hfirst]
    rw [aGet_foldl_aSet_not_mem (allNames r1) [] r1 n hnot1]
    rfl

/-- Witness for C1 (amended): `{name: "b", aliases: ["a"]}` collides with
the already-registered `{name: "a", aliases: ["c"]}` and is skipped
whole. -/
theorem buildCommands_duplicate_spec_witness :
    buildCommands [⟨"a", ["c"]⟩, ⟨"b", ["a"]⟩] =
      buildCommands [⟨"a", ["c"]⟩] :=
  (buildCommands_duplicate_spec ⟨"a", ["c"]⟩ ⟨"b", ["a"]⟩
    ⟨"a", by decide, by decide⟩).1

end Yukibot
